import Mathlib

/-!
# go-branch: the `httpclient` package and the link payload

A shallow embedding of `httpclient/client.go`, `httpclient/options.go`,
`httpclient/default.go` and `link.go`.

Conventions of the embedding

* A Go `(value, error)` result whose two halves are used independently is a pair of
  `Option`s; a result that is either a value or an error is an `Except`.
* A Go `string` and a `[]byte` are both byte sequences (`Bytes`); names that occur in the
  program text (struct tags, header names, methods) are Lean strings.
* `int` is the 64-bit two's-complement integer of the 64-bit Go ports; `time.Duration`
  is an `int64` count of nanoseconds.
* The packages the repository imports (`encoding/json`, `net/http`, `hystrix`, `xid`) are
  not part of it: what the client calls in them is taken as a parameter, except for the
  few lines of `http.NewRequest`, `Request.WithContext` and of the struct encoder of
  `encoding/json` that decide what the client's own code produces.
* Global mutable state of `hystrix` (circuits, pools, metrics, the command table) is an
  explicit state `σ` threaded through the calls.
-/

/-- A Go error value, identified by its message. -/
abbrev Err := String

/-- The contents of a byte slice or of a Go string. -/
abbrev Bytes := List UInt8

/-- How a call ends: it returns a value, or the running goroutine panics. -/
inductive Outcome (α : Type) where
  | returned (a : α)
  | panicked
  deriving DecidableEq, Repr

/-- An `io.Reader` (or `io.ReadCloser`) value: its dynamic type, and what reading it to
the end yields. `buffer` is a `*bytes.Buffer`; `stream` is any other reader, which may
fail with `err` after delivering `data`. -/
inductive Reader where
  | buffer (b : Bytes)
  | stream (kind : String) (data : Bytes) (err : Option Err)
  deriving DecidableEq, Repr

/-- Go `bytes.NewBuffer`. -/
def bytes.NewBuffer (b : Bytes) : Reader := Reader.buffer b

/-- Go `bytes.NewBufferString`: a buffer holding the bytes of the string. -/
def bytes.NewBufferString (s : Bytes) : Reader := Reader.buffer s

/-- Go `ioutil.ReadAll`: everything read before the end of the input or the first
error, and that error. -/
def ioutil.ReadAll : Reader → Bytes × Option Err
  | .buffer b => (b, none)
  | .stream _ data err => (data, err)

/-- The dynamic value held by a `body interface{}` argument, split the way the type
switch of `toIoReader` splits it: the nil interface, a value that implements
`io.Reader`, a `string`, a `[]byte`, and every other value (of a type `V`). -/
inductive Body (V : Type) where
  | nil
  | reader (r : Reader)
  | string (s : Bytes)
  | bytes (b : Bytes)
  | other (v : V)

/-- The two functions of `encoding/json` the client calls. `Marshal` encodes a value or
fails; `Unmarshal b data` decodes `b` into the target `data`, giving the target's new
contents and the error, if any. -/
structure Json (V T : Type) where
  Marshal : V → Except Err Bytes
  Unmarshal : Bytes → T → T × Option Err

/-- Source: `toIoReader` (client.go 180-199). -/
def toIoReader {V T : Type} (json : Json V T) (body : Body V) : Except Err (Option Reader) :=
  match body with
  | .nil => .ok none
  | .reader r => .ok (some r)
  | .string s => .ok (some (bytes.NewBufferString s))
  | .bytes b => .ok (some (bytes.NewBuffer b))
  | .other v =>
    match json.Marshal v with
    | .error err => .error err
    | .ok b => .ok (some (bytes.NewBuffer b))

/-! ## `net/http` and `context`: what the client builds and hands over -/

/-- Go `context.Context` values other than nil. -/
inductive context.Context where
  | background
  | derived (id : Nat)
  deriving DecidableEq, Repr

/-- Go `http.Header`: header names with their values. -/
abbrev http.Header := List (String × List String)

/-- The fields of `http.Request` the client sets or reads. `URL` is the parsed URL of
the request. -/
structure http.Request where
  Method : String
  URL : String
  Header : http.Header
  Body : Option Reader
  ctx : context.Context
  deriving DecidableEq, Repr

/-- The fields of `http.Response` the client and its callers read. -/
structure http.Response where
  StatusCode : Int
  Header : http.Header
  Body : Reader
  deriving DecidableEq, Repr

/-- The parts of `net/http` that `http.NewRequest` relies on: the method check, the URL
parser (with the host normalisation `NewRequest` applies), and the text of the
invalid-method error. -/
structure NetHTTP where
  validMethod : String → Bool
  parseURL : String → Except Err String
  invalidMethod : String → Err

/-- Go `http.NewRequest(method, url, body)`: an empty method means GET, the method and
the URL are validated, and the request starts with an empty header map and the
background context. -/
def http.NewRequest (net : NetHTTP) (method url : String) (body : Option Reader) :
    Except Err http.Request :=
  let method := if method = "" then "GET" else method
  if net.validMethod method then
    match net.parseURL url with
    | .error err => .error err
    | .ok u => .ok ⟨method, u, [], body, context.Context.background⟩
  else .error (net.invalidMethod method)

/-- Go `(*Request).WithContext(ctx)`: a copy of the request carrying `ctx`; a nil
context panics. -/
def http.Request.WithContext (r : http.Request) (ctx : Option context.Context) :
    Outcome http.Request :=
  match ctx with
  | none => .panicked
  | some cx => .returned { r with ctx := cx }

/-- A `*http.Client` as the package uses it: `Do` sends a request and gives the
`(response, error)` pair of that call. -/
structure http.Client where
  Do : http.Request → Option http.Response × Option Err

/-- Go `http.MethodGet`. -/
def http.MethodGet : String := "GET"

/-- Go `http.MethodPost`. -/
def http.MethodPost : String := "POST"

/-! ## `hystrix` -/

/-- Go `hystrix.CommandConfig`. -/
structure hystrix.CommandConfig where
  Timeout : Int
  MaxConcurrentRequests : Int
  RequestVolumeThreshold : Int
  SleepWindow : Int
  ErrorPercentThreshold : Int
  deriving DecidableEq, Repr

/-- The two functions of `hystrix` the client calls, over the library's global state
`σ`. `ConfigureCommand name cfg` updates the command table. `Do κ name run (s, k)` is
`hystrix.Do(name, run, nil)`: `k` holds the variables the function literal `run`
captures; the library decides whether `run` is executed and which error comes back. -/
structure Hystrix (σ : Type) where
  ConfigureCommand : String → hystrix.CommandConfig → σ → σ
  Do : (κ : Type) → String → (κ → κ × Option Err) → σ × κ → (σ × κ) × Option Err

/-- The imported packages a client runs against. -/
structure Imports (σ V T : Type) where
  hystrix : Hystrix σ
  json : Json V T
  net : NetHTTP

/-! ## `httpclient`: `client.go`, `options.go`, `default.go` -/

/-- Go `time.Second`, in nanoseconds. -/
def time.Second : Int := 1000000000

/-- Conversion of an integer to Go `int` (64 bits, two's complement). -/
def toInt (x : Int) : Int := (x + 2 ^ 63) % 2 ^ 64 - 2 ^ 63

namespace httpclient

/-- Source: client.go 17. -/
def defaultHTTPTimeout : Int := 15

/-- Source: client.go 18. -/
def defaultMaxConcurrentRequest : Int := 100

/-- Source: client.go 19. -/
def defaultRequestVolumeThreshold : Int := 20

/-- Source: client.go 20. -/
def defaultSleepWindow : Int := 5

/-- Source: client.go 21. -/
def defaultErrorPercentThreshold : Int := 50

/-- Source: `JSONHeader` (client.go 27-29). -/
def JSONHeader : http.Header := [("Content-Type", ["application/json"])]

/-- Source: `Client` (client.go 33-41). `client` is a pointer and may be nil; the
durations are nanosecond counts. -/
structure Client where
  name : String
  client : Option http.Client
  httpTimeout : Int
  maxConcurrentReq : Int
  reqVolThreshold : Int
  sleepWindow : Int
  errorPercentThreshold : Int

/-- Source: `Option` (options.go 8), a function applied to the client under
construction. Named `ClientOption` here to keep it apart from the option type of Lean. -/
abbrev ClientOption := Client → Client

/-- Source: `WithHTTPTimeout` (options.go 11-15). -/
def WithHTTPTimeout (timeout : Int) : ClientOption :=
  fun c => { c with httpTimeout := timeout }

/-- Source: `WithMaxConcurrentRequest` (options.go 19-23). -/
def WithMaxConcurrentRequest (max : Int) : ClientOption :=
  fun c => { c with maxConcurrentReq := max }

/-- Source: `WithRequestVolumeThreshold` (options.go 27-31). -/
def WithRequestVolumeThreshold (vol : Int) : ClientOption :=
  fun c => { c with reqVolThreshold := vol }

/-- Source: `WithSleepWindow` (options.go 35-39). -/
def WithSleepWindow (sleepWindow : Int) : ClientOption :=
  fun c => { c with sleepWindow := sleepWindow }

/-- Source: `WithErrorPercentThreshold` (options.go 43-47). -/
def WithErrorPercentThreshold (threshold : Int) : ClientOption :=
  fun c => { c with errorPercentThreshold := threshold }

/-- The `hystrix.CommandConfig` literal of `NewClient` (client.go 60-66):
`int(d.Nanoseconds()) / 1e6` with Go's truncating division. -/
def commandConfig (c : Client) : hystrix.CommandConfig :=
  { Timeout := (toInt c.httpTimeout).tdiv 1000000
    MaxConcurrentRequests := c.maxConcurrentReq
    RequestVolumeThreshold := c.reqVolThreshold
    SleepWindow := (toInt c.sleepWindow).tdiv 1000000
    ErrorPercentThreshold := c.errorPercentThreshold }

/-- The client literal at the start of `NewClient` (client.go 45-52); `name` is the
identifier `xid.New().String()` produced. -/
def newClientDefaults (name : String) : Client :=
  { name := name
    client := none
    httpTimeout := defaultHTTPTimeout * time.Second
    maxConcurrentReq := defaultMaxConcurrentRequest
    reqVolThreshold := defaultRequestVolumeThreshold
    sleepWindow := defaultSleepWindow * time.Second
    errorPercentThreshold := defaultErrorPercentThreshold }

/-- Source: `NewClient` (client.go 44-69). `sharedClient` is the package variable of
that name, `name` the fresh identifier from `xid`, `st` the state of `hystrix` before
the call. The result is the client and the state after `hystrix.ConfigureCommand`. -/
def NewClient {σ : Type} (hx : Hystrix σ) (sharedClient : http.Client) (name : String)
    (opts : List ClientOption) (st : σ) : Client × σ :=
  let c := opts.foldl (fun c opt => opt c) (newClientDefaults name)
  let c := { c with client := some sharedClient }
  (c, hx.ConfigureCommand c.name (commandConfig c) st)

/-- Source: `init` (default.go 12-14): the package-level `defaultClient`. -/
def defaultClient {σ : Type} (hx : Hystrix σ) (sharedClient : http.Client) (name : String)
    (st : σ) : Client × σ :=
  NewClient hx sharedClient name [WithHTTPTimeout (defaultHTTPTimeout * time.Second)] st

end httpclient

namespace httpclient

/-- The variables the function literal of `Client.do` assigns (client.go 72-79): `resp`
and `err`, and whether evaluating `c.client.Do` dereferenced a nil `c.client`. -/
structure DoVars where
  resp : Option http.Response
  err : Option Err
  crashed : Bool

/-- The function literal handed to `hystrix.Do` in `Client.do` (client.go 77-80):
`resp, err = c.client.Do(req); return err`. -/
def Client.doRun (c : Client) (req : http.Request) (k : DoVars) : DoVars × Option Err :=
  match c.client with
  | none => ({ k with crashed := true }, none)
  | some hc =>
    let r := hc.Do req
    ({ k with resp := r.1, err := r.2 }, r.2)

/-- Source: `Client.do` (client.go 71-83). The result pairs the state of `hystrix`
after the call with `(resp, err)`, where `err` is what `hystrix.Do` returned. -/
def Client.do {σ : Type} (hx : Hystrix σ) (c : Client) (req : http.Request) (st : σ) :
    σ × Outcome (Option http.Response × Option Err) :=
  let out := hx.Do DoVars c.name (c.doRun req) (st, ⟨none, none, false⟩)
  if out.1.2.crashed then (out.1.1, .panicked)
  else (out.1.1, .returned (out.1.2.resp, out.2))

/-- Source: `Client.Do` (client.go 86-88). -/
def Client.Do {σ : Type} (hx : Hystrix σ) (c : Client) (req : http.Request) (st : σ) :
    σ × Outcome (Option http.Response × Option Err) :=
  c.do hx req st

/-- Source: `Client.DoJSON` (client.go 93-110). `data` is the contents of the target
before the call; the result holds the state of `hystrix`, the contents of the target
after the call, and `(resp, err)`. Taking `resp.Body` of a nil response panics. -/
def Client.DoJSON {σ V T : Type} (im : Imports σ V T) (c : Client) (req : http.Request)
    (data : T) (st : σ) : σ × T × Outcome (Option http.Response × Option Err) :=
  match c.do im.hystrix req st with
  | (st1, .panicked) => (st1, data, .panicked)
  | (st1, .returned (_, some err)) => (st1, data, .returned (none, some err))
  | (st1, .returned (none, none)) => (st1, data, .panicked)
  | (st1, .returned (some resp, none)) =>
    match ioutil.ReadAll resp.Body with
    | (_, some err) => (st1, data, .returned (none, some err))
    | (b, none) =>
      let r := im.json.Unmarshal b data
      (st1, r.1, .returned (some resp, r.2))

/-- Source: `Client.doMethod` (client.go 147-162). -/
def Client.doMethod {σ V T : Type} (im : Imports σ V T) (c : Client)
    (ctx : Option context.Context) (method url : String) (body : Body V)
    (headers : http.Header) (st : σ) : σ × Outcome (Option http.Response × Option Err) :=
  match toIoReader im.json body with
  | .error err => (st, .returned (none, some err))
  | .ok bodyReader =>
    match http.NewRequest im.net method url bodyReader with
    | .error err => (st, .returned (none, some err))
    | .ok req =>
      let req := { req with Header := headers }
      match req.WithContext ctx with
      | .panicked => (st, .panicked)
      | .returned req => c.Do im.hystrix req st

/-- Source: `Client.doMethodJSON` (client.go 164-178). -/
def Client.doMethodJSON {σ V T : Type} (im : Imports σ V T) (c : Client)
    (ctx : Option context.Context) (method url : String) (body : Body V)
    (headers : http.Header) (data : T) (st : σ) :
    σ × T × Outcome (Option http.Response × Option Err) :=
  match toIoReader im.json body with
  | .error err => (st, data, .returned (none, some err))
  | .ok bodyReader =>
    match http.NewRequest im.net method url bodyReader with
    | .error err => (st, data, .returned (none, some err))
    | .ok req =>
      let req := { req with Header := headers }
      match req.WithContext ctx with
      | .panicked => (st, data, .panicked)
      | .returned req => c.DoJSON im req data st

/-- Source: `Client.Get` (client.go 113-115). -/
def Client.Get {σ V T : Type} (im : Imports σ V T) (c : Client)
    (ctx : Option context.Context) (url : String) (headers : http.Header) (st : σ) :
    σ × Outcome (Option http.Response × Option Err) :=
  c.doMethod im ctx http.MethodGet url Body.nil headers st

/-- Source: `Client.GetJSON` (client.go 120-122). -/
def Client.GetJSON {σ V T : Type} (im : Imports σ V T) (c : Client)
    (ctx : Option context.Context) (url : String) (headers : http.Header) (data : T)
    (st : σ) : σ × T × Outcome (Option http.Response × Option Err) :=
  c.doMethodJSON im ctx http.MethodGet url Body.nil headers data st

/-- Source: `Client.Post` (client.go 130-132). -/
def Client.Post {σ V T : Type} (im : Imports σ V T) (c : Client)
    (ctx : Option context.Context) (url : String) (headers : http.Header) (body : Body V)
    (st : σ) : σ × Outcome (Option http.Response × Option Err) :=
  c.doMethod im ctx http.MethodPost url body headers st

/-- Source: `Client.PostJSON` (client.go 142-144). -/
def Client.PostJSON {σ V T : Type} (im : Imports σ V T) (c : Client)
    (ctx : Option context.Context) (url : String) (headers : http.Header) (body : Body V)
    (data : T) (st : σ) : σ × T × Outcome (Option http.Response × Option Err) :=
  c.doMethodJSON im ctx http.MethodPost url body headers data st

end httpclient

/-! ## `encoding/json`: how a struct with `json` tags is encoded

The lines of `encoding/json` (`parseTag`, `tagOptions.Contains`, `isValidTag`, the field
table and the struct encoder) that turn the tags written in `link.go` into the members
of a JSON object. The result is the JSON value; writing it out as bytes is left to the
library. -/

namespace json

/-- A JSON value as far as the structs of `link.go` need it: a string, or an object
with its members in the order they are written. -/
inductive Value where
  | string (s : Bytes)
  | object (members : List (String × Value))

/-- Go `strings.Cut(s, ",")`: the text before the first comma and the text after it. -/
def cutComma : List Char → List Char × List Char
  | [] => ([], [])
  | c :: cs => if c = ',' then ([], cs) else (c :: (cutComma cs).1, (cutComma cs).2)

/-- Go `parseTag`: the name in a `json` tag, and its comma-separated options. -/
def parseTag (tag : String) : String × List Char :=
  (String.mk (cutComma tag.toList).1, (cutComma tag.toList).2)

/-- The loop of `tagOptions.Contains`: cut off one option after another and compare it
with `optionName`; `fuel` bounds the number of rounds by the length of the options. -/
def containsLoop (optionName : List Char) : Nat → List Char → Bool
  | 0, _ => false
  | fuel + 1, s =>
    if s = [] then false
    else if (cutComma s).1 = optionName then true
    else containsLoop optionName fuel (cutComma s).2

/-- Go `tagOptions.Contains`. -/
def tagOptionsContains (o : List Char) (optionName : String) : Bool :=
  if o.length = 0 then false else containsLoop optionName.toList o.length o

/-- Go `isValidTag`, for tags written in ASCII: a non-empty name of letters, digits and
the listed punctuation. -/
def isValidTag (s : String) : Bool :=
  if s = "" then false
  else s.toList.all fun c =>
    "!#$%&()*+-./:;<=>?@[]^_\x7b|\x7d~ ".toList.contains c || c.isAlpha || c.isDigit

/-- One exported struct field: its Go name, its `json` tag as written in the source,
its encoded value, and whether its value is empty in the sense of `isEmptyValue`. -/
structure StructField (α : Type) where
  goName : String
  tag : String
  encode : α → Value
  isEmptyValue : α → Bool

/-- The entry of the field table of `typeFields` for one field: none for the tag `-`,
else the member name (the tag's name when valid, the Go name otherwise) and whether
the options hold `omitempty`. -/
def typeField {α : Type} (f : StructField α) : Option (String × Bool) :=
  if f.tag = "-" then none
  else
    let name := if isValidTag (parseTag f.tag).1 then (parseTag f.tag).1 else ""
    some (if name = "" then f.goName else name,
      tagOptionsContains (parseTag f.tag).2 "omitempty")

/-- The field loop of the struct encoder: a field is skipped when it has `omitempty`
and its value is empty, and written as `name: value` otherwise. -/
def structMembers {α : Type} (fields : List (StructField α)) (v : α) :
    List (String × Value) :=
  fields.filterMap fun f =>
    match typeField f with
    | none => none
    | some (name, omitEmpty) =>
      if omitEmpty && f.isEmptyValue v then none else some (name, f.encode v)

end json

/-! ## `link.go` -/

namespace branch

/-- Source: `LinkData` (link.go 23-28). -/
structure LinkData where
  DesktopURL : Bytes
  AndroidURL : Bytes
  IOSURL : Bytes
  AndroidDeeplinkPath : Bytes
  deriving DecidableEq, Repr

/-- Source: `CreateLinkRequest` (link.go 12-15). -/
structure CreateLinkRequest where
  BranchKey : Bytes
  LinkData : LinkData
  deriving DecidableEq, Repr

/-- Source: `CreateLinkResponse` (link.go 18-20). -/
structure CreateLinkResponse where
  URL : Bytes
  deriving DecidableEq, Repr

/-- The fields of `LinkData` with their tags, as written in link.go 24-27. -/
def LinkData.fields : List (json.StructField LinkData) :=
  [ ⟨"DesktopURL", "$desktop_url,omitempty",
      fun d => .string d.DesktopURL, fun d => d.DesktopURL.length == 0⟩,
    ⟨"AndroidURL", "$android_url,omitempty",
      fun d => .string d.AndroidURL, fun d => d.AndroidURL.length == 0⟩,
    ⟨"IOSURL", "$ios_url,omitmepty",
      fun d => .string d.IOSURL, fun d => d.IOSURL.length == 0⟩,
    ⟨"AndroidDeeplinkPath", "$android_deeplink_path,omitempty",
      fun d => .string d.AndroidDeeplinkPath, fun d => d.AndroidDeeplinkPath.length == 0⟩ ]

/-- The JSON value `encoding/json` produces for a `LinkData`. -/
def LinkData.encode (d : LinkData) : json.Value :=
  .object (json.structMembers LinkData.fields d)

/-- The fields of `CreateLinkRequest` with their tags, as written in link.go 13-14; a
struct value is never empty. -/
def CreateLinkRequest.fields : List (json.StructField CreateLinkRequest) :=
  [ ⟨"BranchKey", "branch_key", fun r => .string r.BranchKey,
      fun r => r.BranchKey.length == 0⟩,
    ⟨"LinkData", "data", fun r => r.LinkData.encode, fun _ => false⟩ ]

/-- The JSON value `encoding/json` produces for a `CreateLinkRequest`. -/
def CreateLinkRequest.encode (r : CreateLinkRequest) : json.Value :=
  .object (json.structMembers CreateLinkRequest.fields r)

/-- The package `encoding/json` as `CreateLink` uses it: `Marshal` of a request is its
JSON value written out by the library (`write`), `Unmarshal` is the library's decoder
into a `CreateLinkResponse`. -/
def encodingJSON (write : json.Value → Bytes)
    (Unmarshal : Bytes → CreateLinkResponse → CreateLinkResponse × Option Err) :
    Json CreateLinkRequest CreateLinkResponse :=
  ⟨fun r => .ok (write r.encode), Unmarshal⟩

/-- Source: `Engine` (branch.go 10-12); the pointer `client` is the client `New` stored
there. -/
structure Engine where
  client : httpclient.Client

/-- Source: `Engine.CreateLink` (link.go 36-48). `createLinkURL` is the package
variable of that name; the target `r` starts as the zero value. -/
def Engine.CreateLink {σ : Type} (im : Imports σ CreateLinkRequest CreateLinkResponse)
    (createLinkURL : String) (e : Engine) (ctx : Option context.Context)
    (req : CreateLinkRequest) (st : σ) : σ × Outcome (Bytes × Option Err) :=
  match e.client.PostJSON im ctx createLinkURL httpclient.JSONHeader (Body.other req)
      ⟨[]⟩ st with
  | (st1, _, .panicked) => (st1, .panicked)
  | (st1, _, .returned (_, some err)) => (st1, .returned ([], some err))
  | (st1, r, .returned (_, none)) => (st1, .returned (r.URL, none))

end branch

/-! ## Concrete inputs

A small closed world on which the definitions above can be evaluated: two Go types
with the encoding `encoding/json` gives them, a `hystrix` that admits every call, and a
destination that echoes what it is sent. -/

namespace sample

/-- Values of two Go types: `struct{ Ok bool; hidden bool }` (one exported and one
unexported field) and `chan int`. -/
inductive Value where
  | record (Ok : Bool) (hidden : Bool)
  | channel
  deriving DecidableEq, Repr

/-- The text `{"Ok":true}`. -/
def okTrue : Bytes := [0x7b, 0x22, 0x4f, 0x6b, 0x22, 0x3a, 0x74, 0x72, 0x75, 0x65, 0x7d]

/-- The text `{"Ok":false}`. -/
def okFalse : Bytes :=
  [0x7b, 0x22, 0x4f, 0x6b, 0x22, 0x3a, 0x66, 0x61, 0x6c, 0x73, 0x65, 0x7d]

/-- The text `{}`. -/
def emptyObject : Bytes := [0x7b, 0x7d]

/-- What `json.Marshal` does on these values: a struct is encoded with its exported
fields only, a channel is rejected with an `UnsupportedTypeError`. -/
def Marshal : Value → Except Err Bytes
  | .record true _ => .ok okTrue
  | .record false _ => .ok okFalse
  | .channel => .error "json: unsupported type: chan int"

/-- What `json.Unmarshal` does on the documents above: only the exported field of a
struct target is set, a channel target is rejected, and the empty input is an error.
Every other input is answered with a syntax error here; JSON documents written in
another way are not part of this sample. -/
def Unmarshal (b : Bytes) (data : Value) : Value × Option Err :=
  if b = [] then (data, some "unexpected end of JSON input")
  else match data with
    | .channel => (data, some "json: cannot unmarshal object into Go value of type chan int")
    | .record ok hidden =>
      if b = okTrue then (.record true hidden, none)
      else if b = okFalse then (.record false hidden, none)
      else if b = emptyObject then (.record ok hidden, none)
      else (data, some "invalid character looking for beginning of value")

/-- The package `encoding/json` on the sample values. -/
def encodingJSON : Json Value Value := ⟨Marshal, Unmarshal⟩

/-- The state of the sample `hystrix`: the command table and the commands run so far. -/
structure State where
  commands : List (String × hystrix.CommandConfig)
  calls : List String
  deriving DecidableEq, Repr

/-- A `hystrix` whose circuit is closed and whose pool has room: every call is
admitted, the function is run, and its error is handed back. -/
def hystrix : Hystrix State :=
  { ConfigureCommand := fun name cfg s => { s with commands := (name, cfg) :: s.commands }
    Do := fun _ name run sk =>
      (({ sk.1 with calls := name :: sk.1.calls }, (run sk.2).1), (run sk.2).2) }

/-- A `net/http` that accepts the methods GET and POST and every URL without a blank. -/
def net : NetHTTP :=
  { validMethod := fun m => m = "GET" || m = "POST"
    parseURL := fun u =>
      if u.toList.contains ' ' then .error "invalid character in URL" else .ok u
    invalidMethod := fun m => "net/http: invalid method " ++ m }

/-- The imported packages of the sample world. -/
def imports : Imports State Value Value := ⟨hystrix, encodingJSON, net⟩

/-- A destination that answers 200 with the request's headers and body, reached
without transport errors. -/
def echo : http.Client :=
  ⟨fun req =>
    (some ⟨200, req.Header,
      match req.Body with
      | none => Reader.buffer []
      | some r => Reader.buffer (ioutil.ReadAll r).1⟩, none)⟩

/-- A client built by `NewClient` without options against the echoing destination. -/
def client : httpclient.Client := (httpclient.NewClient hystrix echo "c1" [] ⟨[], []⟩).1

/-- The state of `hystrix` after building `client`. -/
def state : State := (httpclient.NewClient hystrix echo "c1" [] ⟨[], []⟩).2

end sample

namespace sample

/-- The text `name`, which is not JSON. -/
def notJSON : Bytes := [0x6e, 0x61, 0x6d, 0x65]

/-- A GET request to the echoing destination that carries the text `name`. -/
def request : http.Request :=
  ⟨"GET", "http://echo.test", [], some (Reader.buffer notJSON), context.Context.background⟩

/-- The response the echoing destination gives to `request`. -/
def response : http.Response := ⟨200, [], Reader.buffer notJSON⟩

/-- The state of the sample `hystrix` after one call of `client`. -/
def stateAfterCall : State := { state with calls := ["c1"] }

end sample

/-! ## Admission control, from the specification

The pool and the circuit of `hystrix` decide which calls are admitted; that library
is not among the repository's files, so these parts follow sections 3, 4.2, 4.3 and
4.5 of the specification. Calls on one command are linearizable (section 5), so
simultaneous calls are a sequence of admission steps in some order. -/

namespace spec

/-- Modelled from the spec: the `InFlightCounter` of a command with its bound
`maxConcurrentRequests` (sections 3 and 4.3); the pool of `hystrix` that keeps it is
missing from the sources. -/
structure AdmissionController where
  inFlight : Nat
  maxConcurrentRequests : Nat
  deriving DecidableEq, Repr

/-- Modelled from the spec: `tryAcquire` (section 4.3, missing from the sources):
increments the counter only if the pre-increment value is below the max, and returns
whether acquisition succeeded. -/
def AdmissionController.tryAcquire (a : AdmissionController) : AdmissionController × Bool :=
  if a.inFlight < a.maxConcurrentRequests then ({ a with inFlight := a.inFlight + 1 }, true)
  else (a, false)

/-- Modelled from the spec: `release` (section 4.3, missing from the sources):
decrements the counter. -/
def AdmissionController.release (a : AdmissionController) : AdmissionController :=
  { a with inFlight := a.inFlight - 1 }

/-- Modelled from the spec: `CircuitState` (section 3, missing from the sources). -/
inductive CircuitState where
  | Closed
  | Open
  | HalfOpen
  deriving DecidableEq, Repr

/-- Modelled from the spec: the state of a `CircuitBreaker` that `allow` reads and
writes (section 4.2, missing from the sources), with the command's `sleepWindow`. -/
structure CircuitBreaker where
  state : CircuitState
  openedAt : Int
  halfOpenInFlight : Bool
  sleepWindow : Int
  deriving DecidableEq, Repr

/-- Modelled from the spec: `allow(now)` (section 4.2, missing from the sources).
Closed admits; Open admits only once `now - openedAt >= sleepWindow`, turning HalfOpen
with the caller as the probe, and otherwise rejects without a state change; HalfOpen
rejects every caller that arrives while the probe is out. -/
def CircuitBreaker.allow (b : CircuitBreaker) (now : Int) : CircuitBreaker × Bool :=
  match b.state with
  | .Closed => (b, true)
  | .Open =>
    if now - b.openedAt ≥ b.sleepWindow then
      ({ b with state := CircuitState.HalfOpen, halfOpenInFlight := true }, true)
    else (b, false)
  | .HalfOpen => (b, false)

/-- Modelled from the spec: the per-command state shared by all callers (section 5),
missing from the sources. -/
structure Command where
  admission : AdmissionController
  breaker : CircuitBreaker
  deriving DecidableEq, Repr

/-- Modelled from the spec: how the admission steps of `RequestFacade.invoke` end for
one call (sections 4.5 and 7, missing from the sources): rejected with
`ConcurrencyExceeded`, rejected with `CircuitOpen`, or proceeding to execution. -/
inductive Admission where
  | ConcurrencyExceeded
  | CircuitOpen
  | Executing
  deriving DecidableEq, Repr

/-- Modelled from the spec: the steps of `RequestFacade.invoke` before the work
starts (section 4.5, missing from the sources): `tryAcquire`, failing with
`ConcurrencyExceeded`; then `allow(now)`, failing with `CircuitOpen` after releasing
the slot; else the call holds its slot and executes. -/
def Command.enter (s : Command) (now : Int) : Command × Admission :=
  match s.admission.tryAcquire with
  | (_, false) => (s, Admission.ConcurrencyExceeded)
  | (a, true) =>
    match s.breaker.allow now with
    | (b, false) => (⟨a.release, b⟩, Admission.CircuitOpen)
    | (b, true) => (⟨a, b⟩, Admission.Executing)

/-- Modelled from the spec: calls arriving at the instants `times`, in the order in
which their admission steps take effect, while the destination has answered none of
them: no call completes, so nothing is released or recorded in between. -/
def Command.arrivals (s : Command) : List Int → Command × List Admission
  | [] => (s, [])
  | t :: ts => ((Command.arrivals (s.enter t).1 ts).1,
      (s.enter t).2 :: (Command.arrivals (s.enter t).1 ts).2)

/-- Modelled from the spec: the command created at client construction from its
configuration bundle (section 3, missing from the sources): nothing in flight, the
circuit Closed. -/
def Command.configure (cfg : hystrix.CommandConfig) : Command :=
  ⟨⟨0, cfg.MaxConcurrentRequests.toNat⟩, ⟨CircuitState.Closed, 0, false, cfg.SleepWindow⟩⟩

end spec

/-! ## Theorems -/

section toIoReader

variable {V T : Type}

/-- C1, as amended. `toIoReader` maps a nil body to no reader and no error, a reader
to that same reader, a string `s` to a reader whose content is `s`, a byte slice `b`
to a reader whose content is `b`, and any other value `v` to a reader whose content is
the bytes `json.Marshal(v)` returns when it succeeds; when `json.Marshal(v)` fails,
`toIoReader` yields no reader and returns that error. -/
theorem toIoReader_cases (json : Json V T) :
    toIoReader json Body.nil = .ok none ∧
    (∀ r : Reader, toIoReader json (Body.reader r) = .ok (some r)) ∧
    (∀ s : Bytes, ∃ r, toIoReader json (Body.string s) = .ok (some r) ∧
      ioutil.ReadAll r = (s, none)) ∧
    (∀ b : Bytes, ∃ r, toIoReader json (Body.bytes b) = .ok (some r) ∧
      ioutil.ReadAll r = (b, none)) ∧
    (∀ (v : V) (b : Bytes), json.Marshal v = .ok b →
      ∃ r, toIoReader json (Body.other v) = .ok (some r) ∧ ioutil.ReadAll r = (b, none)) ∧
    (∀ (v : V) (err : Err), json.Marshal v = .error err →
      toIoReader json (Body.other v) = .error err) := by
  refine ⟨rfl, fun _ => rfl, fun s => ⟨Reader.buffer s, rfl, rfl⟩,
    fun b => ⟨Reader.buffer b, rfl, rfl⟩, ?_, ?_⟩
  · intro v b hb
    refine ⟨Reader.buffer b, ?_, rfl⟩
    simp [toIoReader, hb, bytes.NewBuffer]
  · intro v err he
    simp [toIoReader, he]

/-- Witness for C1: a struct value is turned into a reader over its
JSON text. -/
theorem toIoReader_cases_witness :
    ∃ r, toIoReader sample.encodingJSON (Body.other (sample.Value.record true false))
        = .ok (some r) ∧ ioutil.ReadAll r = (sample.okTrue, none) :=
  (toIoReader_cases sample.encodingJSON).2.2.2.2.1 (sample.Value.record true false)
    sample.okTrue rfl

/-- C1, counterexample. A channel is a value that is neither nil, a reader, a string
nor a byte slice; `json.Marshal` rejects it, and `toIoReader` yields no reader for it
but the error. -/
theorem toIoReader_channel_no_reader :
    toIoReader sample.encodingJSON (Body.other sample.Value.channel)
      = .error "json: unsupported type: chan int" ∧
    ¬ ∃ r, toIoReader sample.encodingJSON (Body.other sample.Value.channel)
      = .ok (some r) := by
  refine ⟨rfl, ?_⟩
  rintro ⟨r, hr⟩
  have h : toIoReader sample.encodingJSON (Body.other sample.Value.channel)
      = .error "json: unsupported type: chan int" := rfl
  rw [h] at hr
  cases hr

end toIoReader

section DoJSON

variable {σ V T : Type}

open httpclient

/-- `Client.DoJSON` when the call underneath returned an error. -/
theorem DoJSON_of_do_error (im : Imports σ V T) (c : Client) (req : http.Request)
    (data : T) (st st1 : σ) (respo : Option http.Response) (err : Err)
    (hdo : c.do im.hystrix req st = (st1, .returned (respo, some err))) :
    c.DoJSON im req data st = (st1, data, .returned (none, some err)) := by
  simp only [Client.DoJSON, hdo]

/-- `Client.DoJSON` when the call underneath returned neither a response nor an error. -/
theorem DoJSON_of_do_nil (im : Imports σ V T) (c : Client) (req : http.Request)
    (data : T) (st st1 : σ)
    (hdo : c.do im.hystrix req st = (st1, .returned (none, none))) :
    c.DoJSON im req data st = (st1, data, .panicked) := by
  simp only [Client.DoJSON, hdo]

/-- `Client.DoJSON` when the call underneath panicked. -/
theorem DoJSON_of_do_panicked (im : Imports σ V T) (c : Client) (req : http.Request)
    (data : T) (st st1 : σ)
    (hdo : c.do im.hystrix req st = (st1, .panicked)) :
    c.DoJSON im req data st = (st1, data, .panicked) := by
  simp only [Client.DoJSON, hdo]

/-- `Client.DoJSON` when the call underneath succeeded and reading the body failed. -/
theorem DoJSON_of_read_error (im : Imports σ V T) (c : Client) (req : http.Request)
    (data : T) (st st1 : σ) (resp : http.Response) (b : Bytes) (err : Err)
    (hdo : c.do im.hystrix req st = (st1, .returned (some resp, none)))
    (hread : ioutil.ReadAll resp.Body = (b, some err)) :
    c.DoJSON im req data st = (st1, data, .returned (none, some err)) := by
  simp only [Client.DoJSON, hdo, hread]

/-- `Client.DoJSON` when the call underneath succeeded and the body was read. -/
theorem DoJSON_of_read (im : Imports σ V T) (c : Client) (req : http.Request)
    (data : T) (st st1 : σ) (resp : http.Response) (b : Bytes)
    (hdo : c.do im.hystrix req st = (st1, .returned (some resp, none)))
    (hread : ioutil.ReadAll resp.Body = (b, none)) :
    c.DoJSON im req data st =
      (st1, (im.json.Unmarshal b data).1,
        .returned (some resp, (im.json.Unmarshal b data).2)) := by
  simp only [Client.DoJSON, hdo, hread]

end DoJSON

section DoJSONclaim

variable {σ V T : Type}

open httpclient

/-- C2. `Client.DoJSON` panics only when the call underneath panics or returns
neither a response nor an error. Otherwise it returns, and: the returned error is
non-nil exactly when the call underneath failed, or reading the response body failed,
or the bytes read did not decode into the target; the returned response is nil exactly
in the first two cases; the error of a failed call or read is the one returned and the
target is left alone; after a successful read the call's response is returned together
with whatever `json.Unmarshal` answered, so a decode failure comes with the non-nil
response; an empty body that the decoder rejects is such a decode failure. -/
theorem DoJSON_error_iff (im : Imports σ V T) (c : Client) (req : http.Request)
    (data : T) (st : σ) :
    ((c.DoJSON im req data st).2.2 = Outcome.panicked ↔
      ((c.do im.hystrix req st).2 = Outcome.panicked ∨
        (c.do im.hystrix req st).2 = Outcome.returned (none, none))) ∧
    ∀ (st1 : σ) (respo : Option http.Response) (erro : Option Err),
      c.do im.hystrix req st = (st1, Outcome.returned (respo, erro)) →
      (respo.isSome ∨ erro.isSome) →
      ∃ resp' err' data',
        c.DoJSON im req data st = (st1, data', Outcome.returned (resp', err')) ∧
        (err'.isSome ↔
          (erro.isSome ∨ ∃ resp, respo = some resp ∧
            ((ioutil.ReadAll resp.Body).2.isSome ∨
              ((ioutil.ReadAll resp.Body).2 = none ∧
                (im.json.Unmarshal (ioutil.ReadAll resp.Body).1 data).2.isSome)))) ∧
        (resp' = none ↔
          (erro.isSome ∨ ∃ resp, respo = some resp ∧
            (ioutil.ReadAll resp.Body).2.isSome)) ∧
        (∀ e, erro = some e → err' = some e ∧ data' = data) ∧
        (∀ resp e, erro = none → respo = some resp →
          (ioutil.ReadAll resp.Body).2 = some e → err' = some e ∧ data' = data) ∧
        (∀ resp, erro = none → respo = some resp →
          (ioutil.ReadAll resp.Body).2 = none →
          resp' = some resp ∧
          err' = (im.json.Unmarshal (ioutil.ReadAll resp.Body).1 data).2 ∧
          data' = (im.json.Unmarshal (ioutil.ReadAll resp.Body).1 data).1) ∧
        (∀ resp, erro = none → respo = some resp →
          ioutil.ReadAll resp.Body = ([], none) →
          (im.json.Unmarshal [] data).2.isSome → resp' = some resp ∧ err'.isSome) := by
  constructor
  · rcases hdo : c.do im.hystrix req st with ⟨st1, out⟩
    cases out with
    | panicked => simp [DoJSON_of_do_panicked im c req data st st1 hdo]
    | returned r =>
      rcases r with ⟨respo, erro⟩
      cases erro with
      | some err => simp [DoJSON_of_do_error im c req data st st1 respo err hdo]
      | none =>
        cases respo with
        | none => simp [DoJSON_of_do_nil im c req data st st1 hdo]
        | some resp =>
          rcases hread : ioutil.ReadAll resp.Body with ⟨b, re⟩
          cases re with
          | some err => simp [DoJSON_of_read_error im c req data st st1 resp b err hdo hread]
          | none => simp [DoJSON_of_read im c req data st st1 resp b hdo hread]
  · intro st1 respo erro hdo hwf
    cases erro with
    | some err =>
      refine ⟨none, some err, data, DoJSON_of_do_error im c req data st st1 respo err hdo,
        ?_, ?_, ?_, ?_, ?_, ?_⟩ <;> simp
    | none =>
      cases respo with
      | none => simp at hwf
      | some resp =>
        rcases hread : ioutil.ReadAll resp.Body with ⟨b, re⟩
        cases re with
        | some err =>
          refine ⟨none, some err, data,
            DoJSON_of_read_error im c req data st st1 resp b err hdo hread,
            ?_, ?_, ?_, ?_, ?_, ?_⟩
          · simp [hread]
          · simp [hread]
          · simp
          · intro resp1 e _ h1 h2
            cases h1
            rw [hread] at h2
            simp at h2
            simp [h2]
          · intro resp1 _ h1 h2
            cases h1
            rw [hread] at h2
            simp at h2
          · intro resp1 _ h1 h2
            cases h1
            rw [hread] at h2
            simp at h2
        | none =>
          refine ⟨some resp, (im.json.Unmarshal b data).2, (im.json.Unmarshal b data).1,
            DoJSON_of_read im c req data st st1 resp b hdo hread,
            ?_, ?_, ?_, ?_, ?_, ?_⟩
          · simp [hread]
          · simp [hread]
          · simp
          · intro resp1 e _ h1 h2
            cases h1
            rw [hread] at h2
            simp at h2
          · intro resp1 _ h1 _
            cases h1
            simp [hread]
          · intro resp1 _ h1 h2 h3
            cases h1
            rw [hread] at h2
            cases h2
            exact ⟨rfl, h3⟩

end DoJSONclaim

/-- Witness for C2: the echoed text `name` is not JSON, so the call
returns the response together with a decode error. -/
theorem DoJSON_error_iff_witness :
    ∃ resp' err' data',
      httpclient.Client.DoJSON sample.imports sample.client sample.request
          (sample.Value.record false false) sample.state
        = (sample.stateAfterCall, data', Outcome.returned (resp', err')) ∧
      resp' = some sample.response ∧ err'.isSome = true := by
  obtain ⟨resp', err', data', h, _, _, _, _, h5, _⟩ :=
    (DoJSON_error_iff sample.imports sample.client sample.request
      (sample.Value.record false false) sample.state).2
      sample.stateAfterCall (some sample.response) none rfl (Or.inl rfl)
  have h6 := h5 sample.response rfl rfl rfl
  exact ⟨resp', err', data', h, h6.1, by rw [h6.2.1]; rfl⟩

section frame

variable {σ V T : Type}

open httpclient

/-- C9. The state of `hystrix` (circuit breaker, pool, metrics) after `Client.DoJSON`
is the state after `Client.Do` on the same request, whatever the decoder and the
target are and whether or not the body decodes: it is the state `hystrix.Do` left
after running the function that only calls `c.client.Do(req)`. -/
theorem DoJSON_state_eq_Do_state (im : Imports σ V T) (c : Client) (req : http.Request)
    (data : T) (st : σ) :
    (c.DoJSON im req data st).1 = (c.Do im.hystrix req st).1 ∧
    (c.Do im.hystrix req st).1 =
      (im.hystrix.Do DoVars c.name (c.doRun req) (st, ⟨none, none, false⟩)).1.1 ∧
    ∀ (json' : Json V T) (data' : T),
      (c.DoJSON ⟨im.hystrix, json', im.net⟩ req data' st).1 = (c.DoJSON im req data st).1 := by
  have key : ∀ (im' : Imports σ V T) (d : T),
      (c.DoJSON im' req d st).1 = (c.do im'.hystrix req st).1 := by
    intro im' d
    rcases hdo : c.do im'.hystrix req st with ⟨st1, out⟩
    cases out with
    | panicked => rw [DoJSON_of_do_panicked im' c req d st st1 hdo]
    | returned r =>
      rcases r with ⟨respo, erro⟩
      cases erro with
      | some err => rw [DoJSON_of_do_error im' c req d st st1 respo err hdo]
      | none =>
        cases respo with
        | none => rw [DoJSON_of_do_nil im' c req d st st1 hdo]
        | some resp =>
          rcases hread : ioutil.ReadAll resp.Body with ⟨b, re⟩
          cases re with
          | some err => rw [DoJSON_of_read_error im' c req d st st1 resp b err hdo hread]
          | none => rw [DoJSON_of_read im' c req d st st1 resp b hdo hread]
  refine ⟨key im data, ?_, ?_⟩
  · simp only [Client.Do, Client.do]
    split <;> rfl
  · intro json' data'
    rw [key, key]

end frame

section construction

variable {σ : Type}

open httpclient

/-- C4. `NewClient` without options gives a client with a timeout of 15 seconds, 100
concurrent requests, a request volume threshold of 20, a sleep window of 5 seconds and
an error threshold of 50 percent, and registers under the client's name the command
configuration with these values (15000 and 5000 milliseconds); the package-level
default client, built with `WithHTTPTimeout(15s)`, has the same fields and registers
the same configuration. -/
theorem NewClient_defaults (hx : Hystrix σ) (sharedClient : http.Client) (name : String)
    (st : σ) :
    (NewClient hx sharedClient name [] st).1.name = name ∧
    (NewClient hx sharedClient name [] st).1.httpTimeout = 15 * time.Second ∧
    (NewClient hx sharedClient name [] st).1.maxConcurrentReq = 100 ∧
    (NewClient hx sharedClient name [] st).1.reqVolThreshold = 20 ∧
    (NewClient hx sharedClient name [] st).1.sleepWindow = 5 * time.Second ∧
    (NewClient hx sharedClient name [] st).1.errorPercentThreshold = 50 ∧
    (NewClient hx sharedClient name [] st).2
      = hx.ConfigureCommand name ⟨15000, 100, 20, 5000, 50⟩ st ∧
    (defaultClient hx sharedClient name st).1.name = name ∧
    (defaultClient hx sharedClient name st).1.httpTimeout = 15 * time.Second ∧
    (defaultClient hx sharedClient name st).1.maxConcurrentReq = 100 ∧
    (defaultClient hx sharedClient name st).1.reqVolThreshold = 20 ∧
    (defaultClient hx sharedClient name st).1.sleepWindow = 5 * time.Second ∧
    (defaultClient hx sharedClient name st).1.errorPercentThreshold = 50 ∧
    (defaultClient hx sharedClient name st).2
      = hx.ConfigureCommand name ⟨15000, 100, 20, 5000, 50⟩ st := by
  have hcfg : commandConfig
      { newClientDefaults name with client := some sharedClient }
      = ⟨15000, 100, 20, 5000, 50⟩ := by rfl
  refine ⟨rfl, rfl, rfl, rfl, rfl, rfl, ?_, rfl, rfl, rfl, rfl, rfl, rfl, ?_⟩
  · show hx.ConfigureCommand name (commandConfig
        { newClientDefaults name with client := some sharedClient }) st = _
    rw [hcfg]
  · show hx.ConfigureCommand name (commandConfig
        { newClientDefaults name with client := some sharedClient }) st = _
    rw [hcfg]

end construction

section options

variable {σ : Type}

open httpclient

/-- Options that leave an observation `f` of the client alone leave it alone when
applied one after another. -/
theorem foldl_options_preserve {α : Type} (f : Client → α) (rest : List ClientOption)
    (h : ∀ o ∈ rest, ∀ c : Client, f (o c) = f c) (c : Client) :
    f (rest.foldl (fun c opt => opt c) c) = f c := by
  induction rest generalizing c with
  | nil => rfl
  | cons o rest ih =>
    simp only [List.foldl_cons]
    rw [ih (fun o' ho' => h o' (List.mem_cons_of_mem _ ho')) (o c)]
    exact h o (List.mem_cons_self _ _) c

/-- The value an observation `f` has after `NewClient` ran the options
`opts ++ o :: rest`, when the options of `rest` leave `f` alone and setting the
`client` field does not change it. -/
theorem NewClient_last_wins {α : Type} (f : Client → α) (hx : Hystrix σ)
    (sharedClient : http.Client) (name : String) (st : σ)
    (hf : ∀ c : Client, f { c with client := some sharedClient } = f c)
    (opts rest : List ClientOption) (o : ClientOption)
    (h : ∀ o' ∈ rest, ∀ c : Client, f (o' c) = f c) :
    f (NewClient hx sharedClient name (opts ++ o :: rest) st).1
      = f (o (opts.foldl (fun c opt => opt c) (newClientDefaults name))) := by
  show f { (List.foldl (fun c opt => opt c) (newClientDefaults name) (opts ++ o :: rest))
    with client := some sharedClient } = _
  rw [hf, List.foldl_append, List.foldl_cons, foldl_options_preserve f rest h]

/-- C5. Each of the five options rebuilds the client with its own field set to the
given value and every other field as it was. `NewClient` runs the options from left to
right on the defaults and then sets the `client` field, so for each of the five fields
the value of the last option that sets it is the one the client has, whatever options
stand before it and whatever options that do not touch the field stand after it. -/
theorem options_frame_last_wins (hx : Hystrix σ) (sharedClient : http.Client)
    (name : String) (st : σ) :
    (∀ (t : Int) (c : Client), WithHTTPTimeout t c =
      ⟨c.name, c.client, t, c.maxConcurrentReq, c.reqVolThreshold, c.sleepWindow,
        c.errorPercentThreshold⟩) ∧
    (∀ (n : Int) (c : Client), WithMaxConcurrentRequest n c =
      ⟨c.name, c.client, c.httpTimeout, n, c.reqVolThreshold, c.sleepWindow,
        c.errorPercentThreshold⟩) ∧
    (∀ (n : Int) (c : Client), WithRequestVolumeThreshold n c =
      ⟨c.name, c.client, c.httpTimeout, c.maxConcurrentReq, n, c.sleepWindow,
        c.errorPercentThreshold⟩) ∧
    (∀ (w : Int) (c : Client), WithSleepWindow w c =
      ⟨c.name, c.client, c.httpTimeout, c.maxConcurrentReq, c.reqVolThreshold, w,
        c.errorPercentThreshold⟩) ∧
    (∀ (p : Int) (c : Client), WithErrorPercentThreshold p c =
      ⟨c.name, c.client, c.httpTimeout, c.maxConcurrentReq, c.reqVolThreshold,
        c.sleepWindow, p⟩) ∧
    (∀ opts : List ClientOption, (NewClient hx sharedClient name opts st).1 =
      { opts.foldl (fun c opt => opt c) (newClientDefaults name)
        with client := some sharedClient }) ∧
    (∀ o1 o2 : ClientOption, (NewClient hx sharedClient name [o1, o2] st).1 =
      { o2 (o1 (newClientDefaults name)) with client := some sharedClient }) ∧
    (∀ (opts rest : List ClientOption) (t : Int),
      (∀ o ∈ rest, ∀ c : Client, (o c).httpTimeout = c.httpTimeout) →
      (NewClient hx sharedClient name (opts ++ WithHTTPTimeout t :: rest) st).1.httpTimeout
        = t) ∧
    (∀ (opts rest : List ClientOption) (n : Int),
      (∀ o ∈ rest, ∀ c : Client, (o c).maxConcurrentReq = c.maxConcurrentReq) →
      (NewClient hx sharedClient name
        (opts ++ WithMaxConcurrentRequest n :: rest) st).1.maxConcurrentReq = n) ∧
    (∀ (opts rest : List ClientOption) (n : Int),
      (∀ o ∈ rest, ∀ c : Client, (o c).reqVolThreshold = c.reqVolThreshold) →
      (NewClient hx sharedClient name
        (opts ++ WithRequestVolumeThreshold n :: rest) st).1.reqVolThreshold = n) ∧
    (∀ (opts rest : List ClientOption) (w : Int),
      (∀ o ∈ rest, ∀ c : Client, (o c).sleepWindow = c.sleepWindow) →
      (NewClient hx sharedClient name (opts ++ WithSleepWindow w :: rest) st).1.sleepWindow
        = w) ∧
    (∀ (opts rest : List ClientOption) (p : Int),
      (∀ o ∈ rest, ∀ c : Client, (o c).errorPercentThreshold = c.errorPercentThreshold) →
      (NewClient hx sharedClient name
        (opts ++ WithErrorPercentThreshold p :: rest) st).1.errorPercentThreshold = p) := by
  refine ⟨fun _ _ => rfl, fun _ _ => rfl, fun _ _ => rfl, fun _ _ => rfl, fun _ _ => rfl,
    fun _ => rfl, fun _ _ => rfl, ?_, ?_, ?_, ?_, ?_⟩
  · intro opts rest t h
    exact NewClient_last_wins Client.httpTimeout hx sharedClient name st (fun _ => rfl)
      opts rest _ h
  · intro opts rest n h
    exact NewClient_last_wins Client.maxConcurrentReq hx sharedClient name st
      (fun _ => rfl) opts rest _ h
  · intro opts rest n h
    exact NewClient_last_wins Client.reqVolThreshold hx sharedClient name st
      (fun _ => rfl) opts rest _ h
  · intro opts rest w h
    exact NewClient_last_wins Client.sleepWindow hx sharedClient name st (fun _ => rfl)
      opts rest _ h
  · intro opts rest p h
    exact NewClient_last_wins Client.errorPercentThreshold hx sharedClient name st
      (fun _ => rfl) opts rest _ h

/-- Witness for C5: of two timeouts the second one is kept, with
other options before, between and after them. -/
theorem options_frame_last_wins_witness :
    (NewClient sample.hystrix sample.echo "c1"
      [WithErrorPercentThreshold 25, WithHTTPTimeout 1000000000,
        WithMaxConcurrentRequest 10, WithHTTPTimeout 2000000000,
        WithSleepWindow 3000000000] ⟨[], []⟩).1.httpTimeout = 2000000000 :=
  (options_frame_last_wins sample.hystrix sample.echo "c1" ⟨[], []⟩).2.2.2.2.2.2.2.1
    [WithErrorPercentThreshold 25, WithHTTPTimeout 1000000000, WithMaxConcurrentRequest 10]
    [WithSleepWindow 3000000000] 2000000000
    (by
      intro o ho c
      simp only [List.mem_singleton] at ho
      subst ho
      rfl)

/-- Go `int(d)` is `d` itself for a non-negative `int64` value. -/
theorem toInt_of_nonneg (d : Int) (h0 : 0 ≤ d) (h1 : d < 2 ^ 63) : toInt d = d := by
  unfold toInt
  omega

/-- C10. For a client whose durations are non-negative (`int64` values), the command
configuration `NewClient` registers under the client's name has `Timeout` and
`SleepWindow` equal to the client's timeout and sleep window in nanoseconds divided by
1,000,000 (rounded down), and the other three values equal to the client's fields; a
duration of `m` milliseconds is registered as `m`, so 15 s gives 15000 and 5 s gives
5000. -/
theorem NewClient_registers_milliseconds (hx : Hystrix σ) (sharedClient : http.Client)
    (name : String) (opts : List ClientOption) (st : σ) (c : Client)
    (hc : c = (NewClient hx sharedClient name opts st).1)
    (ht0 : 0 ≤ c.httpTimeout) (ht1 : c.httpTimeout < 2 ^ 63)
    (hs0 : 0 ≤ c.sleepWindow) (hs1 : c.sleepWindow < 2 ^ 63) :
    (NewClient hx sharedClient name opts st).2 =
      hx.ConfigureCommand c.name
        ⟨c.httpTimeout / 1000000, c.maxConcurrentReq, c.reqVolThreshold,
          c.sleepWindow / 1000000, c.errorPercentThreshold⟩ st ∧
    commandConfig c =
      ⟨c.httpTimeout / 1000000, c.maxConcurrentReq, c.reqVolThreshold,
        c.sleepWindow / 1000000, c.errorPercentThreshold⟩ ∧
    (∀ m : Int, c.httpTimeout = m * 1000000 → (commandConfig c).Timeout = m) ∧
    (∀ m : Int, c.sleepWindow = m * 1000000 → (commandConfig c).SleepWindow = m) ∧
    (c.httpTimeout = 15 * time.Second → (commandConfig c).Timeout = 15000) ∧
    (c.sleepWindow = 5 * time.Second → (commandConfig c).SleepWindow = 5000) := by
  have hcfg : commandConfig c =
      ⟨c.httpTimeout / 1000000, c.maxConcurrentReq, c.reqVolThreshold,
        c.sleepWindow / 1000000, c.errorPercentThreshold⟩ := by
    simp only [commandConfig, toInt_of_nonneg _ ht0 ht1, toInt_of_nonneg _ hs0 hs1,
      Int.tdiv_eq_ediv ht0 (by decide : (0 : Int) ≤ 1000000),
      Int.tdiv_eq_ediv hs0 (by decide : (0 : Int) ≤ 1000000)]
  refine ⟨?_, hcfg, ?_, ?_, ?_, ?_⟩
  · rw [← hcfg, hc]
    rfl
  · intro m hm
    rw [hcfg]
    show c.httpTimeout / 1000000 = m
    omega
  · intro m hm
    rw [hcfg]
    show c.sleepWindow / 1000000 = m
    omega
  · intro h
    rw [hcfg]
    show c.httpTimeout / 1000000 = 15000
    rw [h]
    rfl
  · intro h
    rw [hcfg]
    show c.sleepWindow / 1000000 = 5000
    rw [h]
    rfl

/-- Witness for C10: a timeout of 1.5 ms and a sleep
window of 2 s are registered as 1 and 2000. -/
theorem NewClient_registers_milliseconds_witness :
    (NewClient sample.hystrix sample.echo "c1"
      [WithHTTPTimeout 1500000, WithSleepWindow 2000000000] ⟨[], []⟩).2 =
      sample.hystrix.ConfigureCommand "c1" ⟨1, 100, 20, 2000, 50⟩ ⟨[], []⟩ :=
  (NewClient_registers_milliseconds sample.hystrix sample.echo "c1"
    [WithHTTPTimeout 1500000, WithSleepWindow 2000000000] ⟨[], []⟩
    _ rfl (by decide) (by decide) (by decide) (by decide)).1

end options

section requests

variable {σ V T : Type}

open httpclient

/-- `http.NewRequest` on a valid method and a URL that parses. -/
theorem NewRequest_ok (net : NetHTTP) (method url u : String) (body : Option Reader)
    (hm : net.validMethod (if method = "" then "GET" else method) = true)
    (hu : net.parseURL url = .ok u) :
    http.NewRequest net method url body =
      .ok ⟨if method = "" then "GET" else method, u, [], body,
        context.Context.background⟩ := by
  simp only [http.NewRequest, hm, hu, if_true]

/-- What `http.NewRequest` returns when it succeeds. -/
theorem NewRequest_eq_ok (net : NetHTTP) (method url : String) (body : Option Reader)
    (req : http.Request) (h : http.NewRequest net method url body = .ok req) :
    net.validMethod (if method = "" then "GET" else method) = true ∧
    net.parseURL url = .ok req.URL ∧
    req = ⟨if method = "" then "GET" else method, req.URL, [], body,
      context.Context.background⟩ := by
  unfold http.NewRequest at h
  by_cases hm : net.validMethod (if method = "" then "GET" else method) = true
  · simp only [hm, if_true] at h
    cases hu : net.parseURL url with
    | error e => simp [hu] at h
    | ok u =>
      simp only [hu] at h
      cases h
      exact ⟨hm, rfl, rfl⟩
  · simp [hm] at h

/-- `Client.do` when `hystrix` runs the function it is given and hands back its
error: the result is the pair `c.client.Do` gave for exactly this request. -/
theorem do_of_run (hx : Hystrix σ) (c : Client) (req : http.Request) (st st1 : σ)
    (hc : http.Client) (hclient : c.client = some hc)
    (hrun : hx.Do DoVars c.name (c.doRun req) (st, ⟨none, none, false⟩)
      = ((st1, (c.doRun req ⟨none, none, false⟩).1),
          (c.doRun req ⟨none, none, false⟩).2)) :
    c.do hx req st = (st1, Outcome.returned ((hc.Do req).1, (hc.Do req).2)) := by
  simp only [Client.do, hrun, Client.doRun, hclient]
  rfl

/-- C8. For a non-nil context and a URL that parses to `u`, with `get` and `post` the
requests of method GET (no body) and POST (the body `toIoReader` gives), URL `u` and
header mapping exactly `h`:
(1) `Get` and `GetJSON` are `Do` and `DoJSON` on `get`, `Post` and `PostJSON` are `Do`
and `DoJSON` on `post`;
(2) `Do` on a request is `hystrix.Do` on the function that calls `c.client.Do` with
exactly that request, and returns the response that function stored and the error
`hystrix.Do` returned;
(3) whenever `hystrix` runs the function, `Do` returns what `c.client.Do` gave for
exactly that request, and `DoJSON` returns that response with the body decoded into
the target;
(4) so against a destination that answers with the headers it is sent, `Get`,
`GetJSON`, `Post` and `PostJSON` return a response whose header mapping is `h`;
(5) for every method for which `http.NewRequest` succeeds, `doMethod` and
`doMethodJSON` build one and the same request, with the given method (GET for the
empty one), URL `u` and header mapping `h`. -/
theorem request_handed_over (im : Imports σ V T) (c : Client) (cx : context.Context)
    (url u : String) (h : http.Header) (data : T) (st : σ)
    (hurl : im.net.parseURL url = .ok u) :
    (im.net.validMethod "GET" = true →
      c.Get im (some cx) url h st = c.Do im.hystrix ⟨"GET", u, h, none, cx⟩ st ∧
      c.GetJSON im (some cx) url h data st
        = c.DoJSON im ⟨"GET", u, h, none, cx⟩ data st) ∧
    (∀ (body : Body V) (bodyReader : Option Reader),
      im.net.validMethod "POST" = true →
      toIoReader im.json body = .ok bodyReader →
      c.Post im (some cx) url h body st
        = c.Do im.hystrix ⟨"POST", u, h, bodyReader, cx⟩ st ∧
      c.PostJSON im (some cx) url h body data st
        = c.DoJSON im ⟨"POST", u, h, bodyReader, cx⟩ data st) ∧
    (∀ (req : http.Request) (hc : http.Client) (k : DoVars), c.client = some hc →
      c.doRun req k = (⟨(hc.Do req).1, (hc.Do req).2, k.crashed⟩, (hc.Do req).2)) ∧
    (∀ req : http.Request,
      c.Do im.hystrix req st =
        if (im.hystrix.Do DoVars c.name (c.doRun req) (st, ⟨none, none, false⟩)).1.2.crashed
        then
          ((im.hystrix.Do DoVars c.name (c.doRun req) (st, ⟨none, none, false⟩)).1.1,
            Outcome.panicked)
        else
          ((im.hystrix.Do DoVars c.name (c.doRun req) (st, ⟨none, none, false⟩)).1.1,
            Outcome.returned
              ((im.hystrix.Do DoVars c.name (c.doRun req)
                  (st, ⟨none, none, false⟩)).1.2.resp,
                (im.hystrix.Do DoVars c.name (c.doRun req) (st, ⟨none, none, false⟩)).2))) ∧
    (∀ (req : http.Request) (hc : http.Client) (st1 : σ),
      c.client = some hc →
      im.hystrix.Do DoVars c.name (c.doRun req) (st, ⟨none, none, false⟩)
        = ((st1, (c.doRun req ⟨none, none, false⟩).1),
            (c.doRun req ⟨none, none, false⟩).2) →
      c.Do im.hystrix req st = (st1, Outcome.returned ((hc.Do req).1, (hc.Do req).2)) ∧
      (∀ (resp : http.Response) (b : Bytes), hc.Do req = (some resp, none) →
        ioutil.ReadAll resp.Body = (b, none) →
        c.DoJSON im req data st =
          (st1, (im.json.Unmarshal b data).1,
            Outcome.returned (some resp, (im.json.Unmarshal b data).2)))) ∧
    (∀ (hc : http.Client) (st1 : σ) (resp : http.Response),
      c.client = some hc →
      (∀ (r : http.Request) (r' : http.Response) (e : Option Err),
        hc.Do r = (some r', e) → r'.Header = r.Header) →
      im.net.validMethod "GET" = true →
      im.hystrix.Do DoVars c.name (c.doRun ⟨"GET", u, h, none, cx⟩)
          (st, ⟨none, none, false⟩)
        = ((st1, (c.doRun ⟨"GET", u, h, none, cx⟩ ⟨none, none, false⟩).1),
            (c.doRun ⟨"GET", u, h, none, cx⟩ ⟨none, none, false⟩).2) →
      hc.Do ⟨"GET", u, h, none, cx⟩ = (some resp, none) →
      resp.Header = h ∧
      c.Get im (some cx) url h st = (st1, Outcome.returned (some resp, none)) ∧
      (∀ b : Bytes, ioutil.ReadAll resp.Body = (b, none) →
        c.GetJSON im (some cx) url h data st =
          (st1, (im.json.Unmarshal b data).1,
            Outcome.returned (some resp, (im.json.Unmarshal b data).2)))) ∧
    (∀ (hc : http.Client) (st1 : σ) (resp : http.Response) (body : Body V)
      (bodyReader : Option Reader),
      c.client = some hc →
      (∀ (r : http.Request) (r' : http.Response) (e : Option Err),
        hc.Do r = (some r', e) → r'.Header = r.Header) →
      im.net.validMethod "POST" = true →
      toIoReader im.json body = .ok bodyReader →
      im.hystrix.Do DoVars c.name (c.doRun ⟨"POST", u, h, bodyReader, cx⟩)
          (st, ⟨none, none, false⟩)
        = ((st1, (c.doRun ⟨"POST", u, h, bodyReader, cx⟩ ⟨none, none, false⟩).1),
            (c.doRun ⟨"POST", u, h, bodyReader, cx⟩ ⟨none, none, false⟩).2) →
      hc.Do ⟨"POST", u, h, bodyReader, cx⟩ = (some resp, none) →
      resp.Header = h ∧
      c.Post im (some cx) url h body st = (st1, Outcome.returned (some resp, none)) ∧
      (∀ b : Bytes, ioutil.ReadAll resp.Body = (b, none) →
        c.PostJSON im (some cx) url h body data st =
          (st1, (im.json.Unmarshal b data).1,
            Outcome.returned (some resp, (im.json.Unmarshal b data).2)))) ∧
    (∀ (method : String) (body : Body V) (bodyReader : Option Reader)
      (req : http.Request),
      toIoReader im.json body = .ok bodyReader →
      http.NewRequest im.net method url bodyReader = .ok req →
      req.Method = (if method = "" then "GET" else method) ∧ req.URL = u ∧
      c.doMethod im (some cx) method url body h st
        = c.Do im.hystrix ⟨req.Method, u, h, bodyReader, cx⟩ st ∧
      c.doMethodJSON im (some cx) method url body h data st
        = c.DoJSON im ⟨req.Method, u, h, bodyReader, cx⟩ data st) := by
  have hnil : toIoReader im.json (Body.nil : Body V) = .ok none := rfl
  have hGet : im.net.validMethod "GET" = true →
      c.Get im (some cx) url h st = c.Do im.hystrix ⟨"GET", u, h, none, cx⟩ st ∧
      c.GetJSON im (some cx) url h data st
        = c.DoJSON im ⟨"GET", u, h, none, cx⟩ data st := by
    intro hget
    have hG := NewRequest_ok im.net "GET" url u none hget hurl
    constructor
    · simp only [Client.Get, Client.doMethod, hnil, http.MethodGet, hG,
        http.Request.WithContext]
      rfl
    · simp only [Client.GetJSON, Client.doMethodJSON, hnil, http.MethodGet, hG,
        http.Request.WithContext]
      rfl
  have hPost : ∀ (body : Body V) (bodyReader : Option Reader),
      im.net.validMethod "POST" = true →
      toIoReader im.json body = .ok bodyReader →
      c.Post im (some cx) url h body st
        = c.Do im.hystrix ⟨"POST", u, h, bodyReader, cx⟩ st ∧
      c.PostJSON im (some cx) url h body data st
        = c.DoJSON im ⟨"POST", u, h, bodyReader, cx⟩ data st := by
    intro body bodyReader hpost hbody
    have hP := NewRequest_ok im.net "POST" url u bodyReader hpost hurl
    constructor
    · simp only [Client.Post, Client.doMethod, hbody, http.MethodPost, hP,
        http.Request.WithContext]
      rfl
    · simp only [Client.PostJSON, Client.doMethodJSON, hbody, http.MethodPost, hP,
        http.Request.WithContext]
      rfl
  have hDo : ∀ (req : http.Request) (hc : http.Client) (st1 : σ),
      c.client = some hc →
      im.hystrix.Do DoVars c.name (c.doRun req) (st, ⟨none, none, false⟩)
        = ((st1, (c.doRun req ⟨none, none, false⟩).1),
            (c.doRun req ⟨none, none, false⟩).2) →
      c.Do im.hystrix req st = (st1, Outcome.returned ((hc.Do req).1, (hc.Do req).2)) ∧
      (∀ (resp : http.Response) (b : Bytes), hc.Do req = (some resp, none) →
        ioutil.ReadAll resp.Body = (b, none) →
        c.DoJSON im req data st =
          (st1, (im.json.Unmarshal b data).1,
            Outcome.returned (some resp, (im.json.Unmarshal b data).2))) := by
    intro req hc st1 hclient hrun
    have hdo := do_of_run im.hystrix c req st st1 hc hclient hrun
    refine ⟨hdo, ?_⟩
    intro resp b hresp hread
    rw [hresp] at hdo
    exact DoJSON_of_read im c req data st st1 resp b hdo hread
  refine ⟨hGet, hPost, ?_, ?_, hDo, ?_, ?_, ?_⟩
  · intro req hc k hk
    simp only [Client.doRun, hk]
  · intro req
    simp only [Client.Do, Client.do]
  · intro hc st1 resp hclient hecho hget hrun hresp
    obtain ⟨hd, hj⟩ := hDo _ hc st1 hclient hrun
    rw [hresp] at hd
    refine ⟨hecho _ resp none hresp, ?_, ?_⟩
    · rw [(hGet hget).1, hd]
    · intro b hread
      rw [(hGet hget).2]
      exact hj resp b hresp hread
  · intro hc st1 resp body bodyReader hclient hecho hpost hbody hrun hresp
    obtain ⟨hd, hj⟩ := hDo _ hc st1 hclient hrun
    rw [hresp] at hd
    refine ⟨hecho _ resp none hresp, ?_, ?_⟩
    · rw [(hPost body bodyReader hpost hbody).1, hd]
    · intro b hread
      rw [(hPost body bodyReader hpost hbody).2]
      exact hj resp b hresp hread
  · intro method body bodyReader req hbody hreq
    obtain ⟨_, hu', hr⟩ := NewRequest_eq_ok im.net method url bodyReader req hreq
    have hu2 : req.URL = u := by
      rw [hurl] at hu'
      cases hu'
      rfl
    refine ⟨by rw [hr], hu2, ?_, ?_⟩
    · simp only [Client.doMethod, hbody, hreq, http.Request.WithContext]
      rw [hr]
      simp only [hu2]
    · simp only [Client.doMethodJSON, hbody, hreq, http.Request.WithContext]
      rw [hr]
      simp only [hu2]

/-- Witness for C8: a GET that carries a header with two values and a lower-case
header against the echoing destination returns a response with exactly these headers. -/
theorem request_handed_over_witness :
    (⟨200, [("X-Request-Id", ["42", "43"]), ("accept", ["text/plain"])],
        Reader.buffer []⟩ : http.Response).Header
      = [("X-Request-Id", ["42", "43"]), ("accept", ["text/plain"])] ∧
    Client.Get sample.imports sample.client (some context.Context.background)
        "http://echo.test" [("X-Request-Id", ["42", "43"]), ("accept", ["text/plain"])]
        sample.state
      = (sample.stateAfterCall, Outcome.returned
          (some ⟨200, [("X-Request-Id", ["42", "43"]), ("accept", ["text/plain"])],
            Reader.buffer []⟩, none)) :=
  ⟨((request_handed_over sample.imports sample.client context.Context.background
      "http://echo.test" "http://echo.test"
      [("X-Request-Id", ["42", "43"]), ("accept", ["text/plain"])]
      (sample.Value.record false false) sample.state rfl).2.2.2.2.2.1
      sample.echo sample.stateAfterCall
      ⟨200, [("X-Request-Id", ["42", "43"]), ("accept", ["text/plain"])], Reader.buffer []⟩
      rfl (fun _ _ _ hr => by cases hr; rfl) (by decide) rfl rfl).1,
   ((request_handed_over sample.imports sample.client context.Context.background
      "http://echo.test" "http://echo.test"
      [("X-Request-Id", ["42", "43"]), ("accept", ["text/plain"])]
      (sample.Value.record false false) sample.state rfl).2.2.2.2.2.1
      sample.echo sample.stateAfterCall
      ⟨200, [("X-Request-Id", ["42", "43"]), ("accept", ["text/plain"])], Reader.buffer []⟩
      rfl (fun _ _ _ hr => by cases hr; rfl) (by decide) rfl rfl).2.1⟩

end requests

section roundtrip

variable {σ V : Type}

open httpclient

/-- C7, as amended. Let `v` be a value that `json.Marshal` encodes to bytes `b` which
`json.Unmarshal` decodes into the target as `v` again. When POST is accepted, the URL
parses, and the call for the request carrying `b` comes back with a response whose body
reads as `b` (the destination echoes the body), `PostJSON` with body `v` returns that
response without an error and leaves the target equal to `v`. -/
theorem PostJSON_roundtrip (im : Imports σ V V) (c : Client) (cx : context.Context)
    (url u : String) (h : http.Header) (v t0 : V) (b : Bytes) (st st1 : σ)
    (resp : http.Response)
    (hpost : im.net.validMethod "POST" = true)
    (hurl : im.net.parseURL url = .ok u)
    (hm : im.json.Marshal v = .ok b)
    (hdo : c.Do im.hystrix ⟨"POST", u, h, some (Reader.buffer b), cx⟩ st
      = (st1, Outcome.returned (some resp, none)))
    (hecho : ioutil.ReadAll resp.Body = (b, none))
    (hdec : im.json.Unmarshal b t0 = (v, none)) :
    c.PostJSON im (some cx) url h (Body.other v) t0 st
      = (st1, v, Outcome.returned (some resp, none)) := by
  have hbody : toIoReader im.json (Body.other v) = .ok (some (Reader.buffer b)) := by
    simp [toIoReader, hm, bytes.NewBuffer]
  have hP := NewRequest_ok im.net "POST" url u (some (Reader.buffer b)) hpost hurl
  have h1 : c.PostJSON im (some cx) url h (Body.other v) t0 st
      = c.DoJSON im ⟨"POST", u, h, some (Reader.buffer b), cx⟩ t0 st := by
    simp only [Client.PostJSON, Client.doMethodJSON, hbody, http.MethodPost, hP,
      http.Request.WithContext]
    rfl
  rw [h1, DoJSON_of_read im c _ t0 st st1 resp b hdo hecho, hdec]

/-- Witness for C7: a struct whose unexported field is zero comes
back as it was sent. -/
theorem PostJSON_roundtrip_witness :
    Client.PostJSON sample.imports sample.client (some context.Context.background)
        "http://echo.test" JSONHeader (Body.other (sample.Value.record true false))
        (sample.Value.record false false) sample.state
      = (sample.stateAfterCall, sample.Value.record true false,
          Outcome.returned (some ⟨200, JSONHeader, Reader.buffer sample.okTrue⟩, none)) :=
  PostJSON_roundtrip sample.imports sample.client context.Context.background
    "http://echo.test" "http://echo.test" JSONHeader (sample.Value.record true false)
    (sample.Value.record false false) sample.okTrue sample.state sample.stateAfterCall
    ⟨200, JSONHeader, Reader.buffer sample.okTrue⟩ (by decide) rfl rfl (by decide) rfl rfl

/-- C7, counterexample. The struct value `{Ok: true, hidden: true}` is serializable and
the destination echoes its JSON text, yet `PostJSON` into a target of the same type
succeeds and leaves the target at `{Ok: true, hidden: false}`. No decoder could do
better: `{Ok: true, hidden: true}` and `{Ok: true, hidden: false}` are sent as the same
bytes, so no `Unmarshal` gives back both. -/
theorem PostJSON_roundtrip_fails_unexported_field :
    Client.PostJSON sample.imports sample.client (some context.Context.background)
        "http://echo.test" JSONHeader (Body.other (sample.Value.record true true))
        (sample.Value.record false false) sample.state
      = (sample.stateAfterCall, sample.Value.record true false,
          Outcome.returned (some ⟨200, JSONHeader, Reader.buffer sample.okTrue⟩, none)) ∧
    sample.Value.record true false ≠ sample.Value.record true true ∧
    ¬ ∃ Unmarshal : Bytes → sample.Value → sample.Value × Option Err,
      (Client.PostJSON ⟨sample.hystrix, ⟨sample.Marshal, Unmarshal⟩, sample.net⟩
        sample.client (some context.Context.background) "http://echo.test" JSONHeader
        (Body.other (sample.Value.record true true)) (sample.Value.record false false)
        sample.state).2.1 = sample.Value.record true true ∧
      (Client.PostJSON ⟨sample.hystrix, ⟨sample.Marshal, Unmarshal⟩, sample.net⟩
        sample.client (some context.Context.background) "http://echo.test" JSONHeader
        (Body.other (sample.Value.record true false)) (sample.Value.record false false)
        sample.state).2.1 = sample.Value.record true false := by
  refine ⟨by decide, by decide, ?_⟩
  rintro ⟨U, h1, h2⟩
  have e1 : (Client.PostJSON ⟨sample.hystrix, ⟨sample.Marshal, U⟩, sample.net⟩
        sample.client (some context.Context.background) "http://echo.test" JSONHeader
        (Body.other (sample.Value.record true true)) (sample.Value.record false false)
        sample.state).2.1 = (U sample.okTrue (sample.Value.record false false)).1 := rfl
  have e2 : (Client.PostJSON ⟨sample.hystrix, ⟨sample.Marshal, U⟩, sample.net⟩
        sample.client (some context.Context.background) "http://echo.test" JSONHeader
        (Body.other (sample.Value.record true false)) (sample.Value.record false false)
        sample.state).2.1 = (U sample.okTrue (sample.Value.record false false)).1 := rfl
  rw [e1] at h1
  rw [e2, h1] at h2
  cases h2

end roundtrip

section link

/-- C3, evaluated. The tag of `IOSURL` reads `omitmepty`, which is no option of
`encoding/json`, so the member `$ios_url` is written whatever the field holds, while
the other three fields are left out when empty and written under their keys otherwise.
For the zero `LinkData` the object is `{"$ios_url":""}`, and that object is part of the
body `CreateLink` posts. -/
theorem LinkData_IOSURL_not_omitted :
    (∀ d : branch.LinkData, d.encode = json.Value.object
      ((if d.DesktopURL.length == 0 then []
          else [("$desktop_url", json.Value.string d.DesktopURL)]) ++
        (if d.AndroidURL.length == 0 then []
          else [("$android_url", json.Value.string d.AndroidURL)]) ++
        [("$ios_url", json.Value.string d.IOSURL)] ++
        (if d.AndroidDeeplinkPath.length == 0 then []
          else [("$android_deeplink_path", json.Value.string d.AndroidDeeplinkPath)]))) ∧
    branch.LinkData.encode ⟨[], [], [], []⟩
      = json.Value.object [("$ios_url", json.Value.string [])] ∧
    (∀ (write : json.Value → Bytes)
      (Unmarshal : Bytes → branch.CreateLinkResponse → branch.CreateLinkResponse × Option Err)
      (key : Bytes),
      toIoReader (branch.encodingJSON write Unmarshal)
          (Body.other ⟨key, ⟨[], [], [], []⟩⟩)
        = .ok (some (Reader.buffer (write (json.Value.object
            [("branch_key", json.Value.string key),
              ("data", json.Value.object [("$ios_url", json.Value.string [])])]))))) := by
  refine ⟨?_, rfl, fun _ _ _ => rfl⟩
  intro d
  have h1 : json.typeField (α := branch.LinkData) ⟨"DesktopURL", "$desktop_url,omitempty",
      fun d => .string d.DesktopURL, fun d => d.DesktopURL.length == 0⟩
      = some ("$desktop_url", true) := by decide
  have h2 : json.typeField (α := branch.LinkData) ⟨"AndroidURL", "$android_url,omitempty",
      fun d => .string d.AndroidURL, fun d => d.AndroidURL.length == 0⟩
      = some ("$android_url", true) := by decide
  have h3 : json.typeField (α := branch.LinkData) ⟨"IOSURL", "$ios_url,omitmepty",
      fun d => .string d.IOSURL, fun d => d.IOSURL.length == 0⟩
      = some ("$ios_url", false) := by decide
  have h4 : json.typeField (α := branch.LinkData)
      ⟨"AndroidDeeplinkPath", "$android_deeplink_path,omitempty",
      fun d => .string d.AndroidDeeplinkPath, fun d => d.AndroidDeeplinkPath.length == 0⟩
      = some ("$android_deeplink_path", true) := by decide
  simp only [branch.LinkData.encode, json.structMembers, branch.LinkData.fields,
    List.filterMap_cons, List.filterMap_nil, h1, h2, h3, h4]
  by_cases a1 : d.DesktopURL.length = 0 <;> by_cases a2 : d.AndroidURL.length = 0 <;>
    by_cases a4 : d.AndroidDeeplinkPath.length = 0 <;> simp [a1, a2, a4]

end link

section admission

open spec

/-- A call that finds room and a closed circuit takes a slot and executes. -/
theorem enter_of_room (s : Command) (now : Int)
    (hc : s.breaker.state = CircuitState.Closed)
    (hr : s.admission.inFlight < s.admission.maxConcurrentRequests) :
    s.enter now = (⟨{ s.admission with inFlight := s.admission.inFlight + 1 }, s.breaker⟩,
      Admission.Executing) := by
  simp [Command.enter, AdmissionController.tryAcquire, hr, CircuitBreaker.allow, hc]

/-- A call that finds no room is rejected and changes nothing. -/
theorem enter_of_full (s : Command) (now : Int)
    (hr : ¬ s.admission.inFlight < s.admission.maxConcurrentRequests) :
    s.enter now = (s, Admission.ConcurrencyExceeded) := by
  simp [Command.enter, AdmissionController.tryAcquire, hr]

/-- A burst on a closed circuit: the first calls fill the free slots and execute, all
later calls are rejected for concurrency. -/
theorem arrivals_of_closed (times : List Int) :
    ∀ s : Command, s.breaker.state = CircuitState.Closed →
      s.admission.inFlight ≤ s.admission.maxConcurrentRequests →
      (s.arrivals times).2 =
        List.replicate
            (min (s.admission.maxConcurrentRequests - s.admission.inFlight) times.length)
            Admission.Executing ++
          List.replicate
            (times.length - (s.admission.maxConcurrentRequests - s.admission.inFlight))
            Admission.ConcurrencyExceeded ∧
      (s.arrivals times).1.admission.inFlight =
        min s.admission.maxConcurrentRequests (s.admission.inFlight + times.length) ∧
      (s.arrivals times).1.admission.maxConcurrentRequests
        = s.admission.maxConcurrentRequests := by
  induction times with
  | nil =>
    intro s _ hle
    simp [Command.arrivals]
    omega
  | cons t ts ih =>
    intro s hc hle
    have hstep : s.arrivals (t :: ts) = ((Command.arrivals (s.enter t).1 ts).1,
        (s.enter t).2 :: (Command.arrivals (s.enter t).1 ts).2) := rfl
    by_cases hr : s.admission.inFlight < s.admission.maxConcurrentRequests
    · have hs := enter_of_room s t hc hr
      obtain ⟨h1, h2, h3⟩ := ih
        ⟨{ s.admission with inFlight := s.admission.inFlight + 1 }, s.breaker⟩ hc
        (Nat.succ_le_of_lt hr)
      dsimp only at h1 h2 h3
      rw [hstep, hs]
      simp only [List.length_cons]
      rw [h1, h2, h3]
      have e1 : min (s.admission.maxConcurrentRequests - s.admission.inFlight)
          (ts.length + 1)
          = min (s.admission.maxConcurrentRequests - (s.admission.inFlight + 1))
              ts.length + 1 := by omega
      have e2 : ts.length + 1 - (s.admission.maxConcurrentRequests - s.admission.inFlight)
          = ts.length - (s.admission.maxConcurrentRequests - (s.admission.inFlight + 1)) := by
        omega
      rw [e1, e2, List.replicate_succ]
      refine ⟨rfl, ?_, rfl⟩
      omega
    · have hs := enter_of_full s t hr
      obtain ⟨h1, h2, h3⟩ := ih s hc hle
      rw [hstep, hs]
      simp only [List.length_cons]
      rw [h1, h2, h3]
      have e0 : s.admission.maxConcurrentRequests - s.admission.inFlight = 0 := by omega
      rw [e0]
      simp only [Nat.zero_min, List.replicate_zero, List.nil_append, Nat.sub_zero,
        List.replicate_succ, true_and, and_true]
      omega

/-- C6. For a client configured with `maxConcurrentRequests = N`, take the command
created from the configuration `NewClient` registers. Of `N + k` calls that all arrive
before the destination has answered any of them, the first `N` to arrive proceed to
execution and the other `k` fail with the concurrency-exceeded error: exactly `N`
execute, exactly `k` are rejected for concurrency, none is rejected by the circuit,
and `N` calls are in flight afterwards. -/
theorem arrivals_execute_N_reject_k (c : httpclient.Client) (N k : Nat) (times : List Int)
    (hN : c.maxConcurrentReq = N) (hlen : times.length = N + k) :
    ((Command.configure (httpclient.commandConfig c)).arrivals times).2 =
      List.replicate N Admission.Executing ++
        List.replicate k Admission.ConcurrencyExceeded ∧
    (((Command.configure (httpclient.commandConfig c)).arrivals times).2.count
      Admission.Executing) = N ∧
    (((Command.configure (httpclient.commandConfig c)).arrivals times).2.count
      Admission.ConcurrencyExceeded) = k ∧
    (((Command.configure (httpclient.commandConfig c)).arrivals times).2.count
      Admission.CircuitOpen) = 0 ∧
    ((Command.configure (httpclient.commandConfig c)).arrivals times).1.admission.inFlight
      = N := by
  have hmax : (Command.configure (httpclient.commandConfig c)).admission.maxConcurrentRequests
      = N := by
    simp [Command.configure, httpclient.commandConfig, hN]
  have hfl : (Command.configure (httpclient.commandConfig c)).admission.inFlight = 0 := rfl
  obtain ⟨h1, h2, _⟩ := arrivals_of_closed times
    (Command.configure (httpclient.commandConfig c)) rfl (by rw [hfl]; exact Nat.zero_le _)
  rw [hmax, hfl, hlen] at h1 h2
  have e1 : min (N - 0) (N + k) = N := by omega
  have e2 : N + k - (N - 0) = k := by omega
  rw [e1, e2] at h1
  refine ⟨h1, ?_, ?_, ?_, ?_⟩
  · rw [h1]
    simp [List.count_replicate]
  · rw [h1]
    simp [List.count_replicate]
  · rw [h1]
    simp [List.count_replicate]
  · rw [h2]
    omega

/-- Witness for C6: with `WithMaxConcurrentRequest(10)` and twelve simultaneous calls,
exactly two fail with the concurrency-exceeded error. -/
theorem arrivals_execute_N_reject_k_witness :
    ((Command.configure (httpclient.commandConfig
        (httpclient.NewClient sample.hystrix sample.echo "c1"
          [httpclient.WithMaxConcurrentRequest 10,
            httpclient.WithRequestVolumeThreshold 5] ⟨[], []⟩).1)).arrivals
      (List.replicate 12 0)).2.count Admission.ConcurrencyExceeded = 2 :=
  (arrivals_execute_N_reject_k
    (httpclient.NewClient sample.hystrix sample.echo "c1"
      [httpclient.WithMaxConcurrentRequest 10,
        httpclient.WithRequestVolumeThreshold 5] ⟨[], []⟩).1
    10 2 (List.replicate 12 0) rfl rfl).2.2.1

end admission
